import Mathlib

/-!
Shallow embedding of the ZOL faction-game program
(`programs/zol-contract/src/lib.rs`).

The machine integers `u64`/`i64` of the source are modelled as `Nat`/`Int`
together with explicit checked arithmetic that fails — aborting the whole
transaction — outside the machine range, matching the
`checked_add(..).unwrap()` / `checked_sub(..).unwrap()` calls of the source.
Token transfers are modelled as recorded events; inside `execute_settlement`
a transfer-outcome oracle `tok : Nat → Bool` decides whether the n-th
transfer attempt of the call succeeds, so that a failed transfer and the
resulting transaction abort are expressible.  A fallible instruction is a
function into `Except ZErr _`; the surrounding runtime commits the returned
state on `ok` and keeps the pre-state on `error` (`applyOp` / `commit`).
-/

namespace Zol

inductive ZErr where
  | overflow
  | underflow
  | badIndex
  | invalidFaction
  | insufficientFunds
  | transferFailed
  deriving DecidableEq

/-- `u64` range bound: `2 ^ 64`. -/
def U64LIM : Nat := 2 ^ 64

/-- `u64::checked_add` followed by `.unwrap()`: the `Err` case aborts. -/
def checkedAdd (a b : Nat) : Except ZErr Nat :=
  if a + b < U64LIM then .ok (a + b) else .error .overflow

/-- `u64::checked_sub` followed by `.unwrap()`: the `Err` case aborts. -/
def checkedSub (a b : Nat) : Except ZErr Nat :=
  if b ≤ a then .ok (a - b) else .error .underflow

/-- `i64` range bound: `2 ^ 63`. -/
def I64LIM : Int := 2 ^ 63

/-- Modelled from the spec: the source adds to `i64` timestamps (and to
`epoch_number`) with plain `+` / `+=`; whether that traps on overflow is
decided by the build profile's `overflow-checks` flag, whose manifest is
not among the sources here.  The spec states that any overflow or
underflow is a fatal error for the operation, so the addition is modelled
as checked against the `i64` range. -/
def checkedAddI (a b : Int) : Except ZErr Int :=
  if -I64LIM ≤ a + b ∧ a + b < I64LIM then .ok (a + b) else .error .overflow

inductive GameStatus where
  | Active
  | Settlement
  | Paused
  deriving DecidableEq

structure FactionState where
  id : Nat
  name : String
  tvl : Nat
  score : Int
  deriving DecidableEq

structure GameState where
  admin : Nat
  epoch_number : Nat
  epoch_start_ts : Int
  epoch_end_ts : Int
  total_tvl : Nat
  factions : List FactionState
  status : GameStatus
  deriving DecidableEq

structure AutomationRule where
  item_id : Nat
  threshold : Nat
  deriving DecidableEq

inductive FallbackAction where
  | AutoCompound
  | SendToWallet
  deriving DecidableEq

structure AutomationSettings where
  priority_slot_1 : AutomationRule
  priority_slot_2 : AutomationRule
  fallback_action : FallbackAction
  deriving DecidableEq

structure UserInventory where
  sword_count : Nat
  shield_count : Nat
  spyglass_count : Nat
  deriving DecidableEq

structure UserPosition where
  owner : Nat
  faction_id : Nat
  deposited_amount : Nat
  last_deposit_epoch : Nat
  automation_settings : AutomationSettings
  inventory : UserInventory
  deriving DecidableEq

/-- Destination of a vault-outgoing token transfer during settlement. -/
inductive XferDest where
  | shopTreasury
  | userWallet
  deriving DecidableEq

/-- A value transfer recorded by the model. -/
structure Xfer where
  dest : XferDest
  amount : Nat
  deriving DecidableEq

/-- The fixed item price table (`get_item_price` closure of the source). -/
def get_item_price (id : Nat) : Nat :=
  match id with
  | 1 => 10000000
  | 2 => 2000000
  | 3 => 5000000
  | _ => 0

/-- The inventory update of a successful purchase (the `match rule.item_id`
block inside `process_rule`); counters use checked addition. -/
def bumpInventory (id : Nat) (inv : UserInventory) : Except ZErr UserInventory :=
  match id with
  | 1 =>
    match checkedAdd inv.sword_count 1 with
    | .ok n => .ok {inv with sword_count := n}
    | .error e => .error e
  | 2 =>
    match checkedAdd inv.shield_count 1 with
    | .ok n => .ok {inv with shield_count := n}
    | .error e => .error e
  | 3 =>
    match checkedAdd inv.spyglass_count 1 with
    | .ok n => .ok {inv with spyglass_count := n}
    | .error e => .error e
  | _ => .ok inv

/-- The `process_rule` closure of `execute_settlement`: one priority slot
evaluated against the running budget.  `tidx` counts transfer attempts of
the enclosing call; on a purchase the slot debits the budget, bumps the
inventory and transfers the price from the vault to the shop treasury. -/
def process_rule (tok : Nat → Bool) (tidx : Nat) (rule : AutomationRule)
    (budget : Nat) (inv : UserInventory) :
    Except ZErr (Nat × UserInventory × List Xfer × Nat) :=
  if rule.item_id = 0 then .ok (budget, inv, [], tidx)
  else if budget < rule.threshold then .ok (budget, inv, [], tidx)
  else
    let price := get_item_price rule.item_id
    if price = 0 ∨ budget < price then .ok (budget, inv, [], tidx)
    else
      match checkedSub budget price with
      | .error e => .error e
      | .ok b' =>
        match bumpInventory rule.item_id inv with
        | .error e => .error e
        | .ok inv' =>
          if tok tidx then .ok (b', inv', [{ dest := .shopTreasury, amount := price }], tidx + 1)
          else .error .transferFailed

/-- Logic A of `execute_settlement` (the buff block): shield insurance on a
loss, sword boost on a win.  `none` is the early `return Ok(())` of the
total-loss branch. -/
def buff_step (score : Int) (u : UserPosition) (y : Nat) :
    Except ZErr (Option (UserPosition × Nat)) :=
  if score ≤ 0 then
    if 0 < u.inventory.shield_count then
      match checkedSub u.inventory.shield_count 1 with
      | .error e => .error e
      | .ok n =>
        .ok (some ({u with inventory := {u.inventory with shield_count := n}}, 2000000))
    else .ok none
  else
    if 0 < u.inventory.sword_count then
      match checkedAdd y (y / 5) with
      | .error e => .error e
      | .ok fy => .ok (some (u, fy))
    else .ok (some (u, y))

/-- Logic B and C of `execute_settlement`: the two priority slots followed
by the fallback disposition of whatever yield remains. -/
def run_pipeline (tok : Nat → Bool) (gs : GameState) (u : UserPosition) (fy : Nat) :
    Except ZErr (GameState × UserPosition × List Xfer) :=
  if fy = 0 then .ok (gs, u, [])
  else
    match process_rule tok 0 u.automation_settings.priority_slot_1 fy u.inventory with
    | .error e => .error e
    | .ok (b1, inv1, x1, t1) =>
      match process_rule tok t1 u.automation_settings.priority_slot_2 b1 inv1 with
      | .error e => .error e
      | .ok (b2, inv2, x2, t2) =>
        if b2 = 0 then .ok (gs, {u with inventory := inv2}, x1 ++ x2)
        else
          match u.automation_settings.fallback_action with
          | .SendToWallet =>
            if tok t2 then
              .ok (gs, {u with inventory := inv2},
                   x1 ++ x2 ++ [{ dest := .userWallet, amount := b2 }])
            else .error .transferFailed
          | .AutoCompound =>
            match checkedAdd u.deposited_amount b2 with
            | .error e => .error e
            | .ok d =>
              match checkedAdd gs.total_tvl b2 with
              | .error e => .error e
              | .ok t =>
                match gs.factions.get? u.faction_id with
                | none => .error .badIndex
                | some f =>
                  match checkedAdd f.tvl b2 with
                  | .error e => .error e
                  | .ok ft =>
                    .ok ({gs with total_tvl := t, factions := gs.factions.set u.faction_id {f with tvl := ft}},
                         {u with inventory := inv2, deposited_amount := d}, x1 ++ x2)

/-- The `execute_settlement` instruction on the accounts it touches.  The
faction-array read (`factions[faction_id].score`) panics — hence aborts —
on an out-of-range id, modelled by the `none` branch of `get?`. -/
def execute_settlement (tok : Nat → Bool) (gs : GameState) (u : UserPosition)
    (yield_amount : Nat) : Except ZErr (GameState × UserPosition × List Xfer) :=
  match gs.factions.get? u.faction_id with
  | none => .error .badIndex
  | some f =>
    match buff_step f.score u yield_amount with
    | .error e => .error e
    | .ok none => .ok (gs, u, [])
    | .ok (some (u1, fy)) => run_pipeline tok gs u1 fy

/-- The three factions created by `initialize_game`. -/
def initial_factions : List FactionState :=
  [{ id := 0, name := "Vanguard", tvl := 0, score := 0 },
   { id := 1, name := "Mage", tvl := 0, score := 0 },
   { id := 2, name := "Assassin", tvl := 0, score := 0 }]

/-- Global chain state: the `GameState` singleton plus every registered
`UserPosition` (addressed by list index in the model). -/
structure ChainState where
  gs : GameState
  users : List UserPosition
  deriving DecidableEq

/-- The `initialize_game` instruction at clock time `now`. -/
def init_game (admin : Nat) (now : Int) : Except ZErr ChainState :=
  match checkedAddI now 259200 with
  | .error e => .error e
  | .ok endTs =>
    .ok { gs := { admin := admin
                  epoch_number := 1
                  epoch_start_ts := now
                  epoch_end_ts := endTs
                  total_tvl := 0
                  factions := initial_factions
                  status := .Active }
          users := [] }

/-- Default automation written by `register_user` (Rust `Default`:
zeroed slots, `AutoCompound` fallback). -/
def default_automation : AutomationSettings :=
  { priority_slot_1 := { item_id := 0, threshold := 0 }
    priority_slot_2 := { item_id := 0, threshold := 0 }
    fallback_action := .AutoCompound }

/-- The `register_user` instruction: validates the faction id and appends a
fresh zero-balance position. -/
def register_user (s : ChainState) (owner : Nat) (faction_id : Nat) :
    Except ZErr ChainState :=
  if faction_id < 3 then
    .ok {s with users := s.users ++
          [{ owner := owner
             faction_id := faction_id
             deposited_amount := 0
             last_deposit_epoch := s.gs.epoch_number
             automation_settings := default_automation
             inventory := { sword_count := 0, shield_count := 0, spyglass_count := 0 } }]}
  else .error .invalidFaction

/-- The `deposit` instruction on the accounts it touches (the user→vault
transfer is scoped out per the spec's §1/§6 and always succeeds). -/
def deposit (gs : GameState) (u : UserPosition) (amount : Nat) :
    Except ZErr (GameState × UserPosition) :=
  match checkedAdd u.deposited_amount amount with
  | .error e => .error e
  | .ok d =>
    match checkedAdd gs.total_tvl amount with
    | .error e => .error e
    | .ok t =>
      match gs.factions.get? u.faction_id with
      | none => .error .badIndex
      | some f =>
        match checkedAdd f.tvl amount with
        | .error e => .error e
        | .ok ft =>
          .ok ({gs with total_tvl := t, factions := gs.factions.set u.faction_id {f with tvl := ft}},
               {u with deposited_amount := d, last_deposit_epoch := gs.epoch_number})

/-- The `withdraw` instruction on the accounts it touches. -/
def withdraw (gs : GameState) (u : UserPosition) (amount : Nat) :
    Except ZErr (GameState × UserPosition) :=
  if u.deposited_amount < amount then .error .insufficientFunds
  else
    match checkedSub u.deposited_amount amount with
    | .error e => .error e
    | .ok d =>
      match checkedSub gs.total_tvl amount with
      | .error e => .error e
      | .ok t =>
        match gs.factions.get? u.faction_id with
        | none => .error .badIndex
        | some f =>
          match checkedSub f.tvl amount with
          | .error e => .error e
          | .ok ft =>
            .ok ({gs with total_tvl := t, factions := gs.factions.set u.faction_id {f with tvl := ft}},
                 {u with deposited_amount := d})

/-- `factions[j].score = 0` on the faction array: aborts when the index is
out of range (impossible for the source's fixed `[FactionState; 3]`). -/
def set_score_zero (l : List FactionState) (j : Nat) : Except ZErr (List FactionState) :=
  match l.get? j with
  | some f => .ok (l.set j {f with score := 0})
  | none => .error .badIndex

/-- The `start_new_epoch` instruction at clock time `now`.  Modelled from
the spec for the overflow behavior of the plain `+=` / `+` of the source:
per the spec any overflow is fatal, so both the `epoch_number` increment
and the timestamp addition are checked (see `checkedAddI`). -/
def start_new_epoch (gs : GameState) (now : Int) : Except ZErr GameState :=
  match checkedAdd gs.epoch_number 1 with
  | .error e => .error e
  | .ok n =>
    match checkedAddI now 259200 with
    | .error e => .error e
    | .ok endTs =>
      match set_score_zero gs.factions 0 with
      | .error e => .error e
      | .ok f1 =>
        match set_score_zero f1 1 with
        | .error e => .error e
        | .ok f2 =>
          match set_score_zero f2 2 with
          | .error e => .error e
          | .ok f3 =>
            .ok {gs with epoch_number := n, epoch_start_ts := now, epoch_end_ts := endTs, status := .Active, factions := f3}

/-- The user-driven operations of the conservation claim, addressing the
acting user by index. -/
inductive Op where
  | register (owner : Nat) (faction_id : Nat)
  | deposit (i : Nat) (amount : Nat)
  | withdraw (i : Nat) (amount : Nat)
  | settle (tok : Nat → Bool) (i : Nat) (yield_amount : Nat)

/-- Run one operation; the error is surfaced to the runtime verbatim. -/
def runOp (s : ChainState) : Op → Except ZErr ChainState
  | .register o fid => register_user s o fid
  | .deposit i amount =>
    match s.users.get? i with
    | none => .error .badIndex
    | some u =>
      match deposit s.gs u amount with
      | .error e => .error e
      | .ok (gs', u') => .ok { gs := gs', users := s.users.set i u' }
  | .withdraw i amount =>
    match s.users.get? i with
    | none => .error .badIndex
    | some u =>
      match withdraw s.gs u amount with
      | .error e => .error e
      | .ok (gs', u') => .ok { gs := gs', users := s.users.set i u' }
  | .settle tok i y =>
    match s.users.get? i with
    | none => .error .badIndex
    | some u =>
      match execute_settlement tok s.gs u y with
      | .error e => .error e
      | .ok (gs', u', _) => .ok { gs := gs', users := s.users.set i u' }

/-- Transactional commit: the runtime persists the new state only when the
instruction returned `ok`; on `error` every account keeps its pre-state. -/
def commit (s : ChainState) (r : Except ZErr ChainState) : ChainState :=
  match r with
  | .ok s' => s'
  | .error _ => s

/-- State resulting from one committed (or aborted) operation. -/
def applyOp (s : ChainState) (op : Op) : ChainState :=
  commit s (runOp s op)

/-- `start_new_epoch` as a whole-chain transaction (it touches no user). -/
def start_new_epoch_ix (s : ChainState) (now : Int) : Except ZErr ChainState :=
  match start_new_epoch s.gs now with
  | .error e => .error e
  | .ok gs' => .ok { gs := gs', users := s.users }

def isOk {α : Type} (r : Except ZErr α) : Bool :=
  match r with
  | .ok _ => true
  | .error _ => false

/-- Observed tvl of faction `j` (0 outside the array, which never occurs
for the source's fixed-size array). -/
def tvlAt (gs : GameState) (j : Nat) : Nat :=
  match gs.factions.get? j with
  | some f => f.tvl
  | none => 0

/-- Observed score of faction `j`. -/
def scoreAt (gs : GameState) (j : Nat) : Int :=
  match gs.factions.get? j with
  | some f => f.score
  | none => 0

/-- Observed deposited balance of user `i`. -/
def depAt (s : ChainState) (i : Nat) : Nat :=
  match s.users.get? i with
  | some u => u.deposited_amount
  | none => 0

/-- Sum of all users' deposited amounts. -/
def sumDeps (l : List UserPosition) : Nat :=
  (l.map (fun u => u.deposited_amount)).sum

/-- Contribution of one user to faction `j`'s deposits. -/
def facDep (j : Nat) (u : UserPosition) : Nat :=
  if u.faction_id = j then u.deposited_amount else 0

/-- Sum of the deposits of faction `j`'s members. -/
def sumFac (j : Nat) (l : List UserPosition) : Nat :=
  (l.map (facDep j)).sum

/-- Ledger invariant maintained by every operation: three factions, valid
membership ids, the global total equals the users' total, and each
faction's tvl equals its members' total. -/
def StrongInv (s : ChainState) : Prop :=
  s.gs.factions.length = 3 ∧
  (∀ u ∈ s.users, u.faction_id < 3) ∧
  s.gs.total_tvl = sumDeps s.users ∧
  ∀ j, j < 3 → tvlAt s.gs j = sumFac j s.users

/-- The conservation statement of the spec: the global total equals the sum
of the three faction tvls and the sum of all user deposits. -/
def ConsInv (s : ChainState) : Prop :=
  s.gs.total_tvl = tvlAt s.gs 0 + tvlAt s.gs 1 + tvlAt s.gs 2 ∧
  s.gs.total_tvl = sumDeps s.users

theorem checkedAdd_ok {a b r : Nat} (h : checkedAdd a b = .ok r) :
    r = a + b ∧ a + b < U64LIM := by
  unfold checkedAdd at h
  split at h
  case isTrue hc => injection h with h; exact ⟨h.symm, hc⟩
  case isFalse => cases h

theorem checkedSub_ok {a b r : Nat} (h : checkedSub a b = .ok r) :
    b ≤ a ∧ r = a - b := by
  unfold checkedSub at h
  split at h
  case isTrue hc => injection h with h; exact ⟨hc, h.symm⟩
  case isFalse => cases h

theorem checkedAddI_ok {a b r : Int} (h : checkedAddI a b = .ok r) :
    r = a + b ∧ -I64LIM ≤ a + b ∧ a + b < I64LIM := by
  unfold checkedAddI at h
  split at h
  case isTrue hc => injection h with h; exact ⟨h.symm, hc⟩
  case isFalse => cases h

theorem get?_some_lt {α : Type} {l : List α} {j : Nat} {u : α}
    (h : l.get? j = some u) : j < l.length := by
  cases Nat.lt_or_ge j l.length with
  | inl hlt => exact hlt
  | inr hge => rw [List.get?_eq_none.mpr hge] at h; cases h

theorem get?_set_self {α : Type} {l : List α} {j : Nat} (x : α) (h : j < l.length) :
    (l.set j x).get? j = some x := by
  simp [List.getElem?_set, h]

theorem get?_set_ne {α : Type} {l : List α} {j k : Nat} (x : α) (h : j ≠ k) :
    (l.set k x).get? j = l.get? j := by
  simp [List.getElem?_set, Ne.symm h]

theorem sum_map_set {α : Type} (g : α → Nat) {l : List α} {j : Nat} {u : α} (u' : α)
    (h : l.get? j = some u) :
    ((l.set j u').map g).sum + g u = (l.map g).sum + g u' := by
  induction l generalizing j with
  | nil => simp [List.get?] at h
  | cons a t ih =>
    cases j with
    | zero =>
      injection h with h
      subst h
      simp only [List.set, List.map_cons, List.sum_cons]
      omega
    | succ k =>
      have hk : t.get? k = some u := h
      have := ih hk
      simp only [List.set, List.map_cons, List.sum_cons]
      omega

theorem le_sum_of_get? {α : Type} (g : α → Nat) {l : List α} {j : Nat} {u : α}
    (h : l.get? j = some u) : g u ≤ (l.map g).sum := by
  induction l generalizing j with
  | nil => simp [List.get?] at h
  | cons a t ih =>
    cases j with
    | zero =>
      injection h with h
      subst h
      simp only [List.map_cons, List.sum_cons]
      omega
    | succ k =>
      have hk : t.get? k = some u := h
      have := ih hk
      simp only [List.map_cons, List.sum_cons]
      omega

theorem tvlAt_set {gs gs2 : GameState} {k : Nat} {f : FactionState} {f' : FactionState}
    (hf : gs.factions.get? k = some f)
    (h2 : gs2.factions = gs.factions.set k f') (j : Nat) :
    tvlAt gs2 j = if j = k then f'.tvl else tvlAt gs j := by
  unfold tvlAt
  rw [h2]
  by_cases hj : j = k
  · subst hj
    rw [get?_set_self f' (get?_some_lt hf)]
    simp
  · rw [get?_set_ne f' hj]
    simp [hj]

theorem sumFac_split {l : List UserPosition} (h : ∀ u ∈ l, u.faction_id < 3) :
    sumFac 0 l + sumFac 1 l + sumFac 2 l = sumDeps l := by
  induction l with
  | nil => rfl
  | cons a t ih =>
    have ha : a.faction_id < 3 := h a (List.mem_cons_self a t)
    have ht := ih (fun v hv => h v (List.mem_cons_of_mem a hv))
    simp only [sumFac, sumDeps, List.map_cons, List.sum_cons, facDep] at *
    interval_cases hfa : a.faction_id <;> simp <;> omega

theorem deposit_ok {gs : GameState} {u : UserPosition} {amount : Nat}
    {gs' : GameState} {u' : UserPosition}
    (h : deposit gs u amount = .ok (gs', u')) :
    ∃ f, gs.factions.get? u.faction_id = some f ∧
      u.deposited_amount + amount < U64LIM ∧
      gs.total_tvl + amount < U64LIM ∧
      f.tvl + amount < U64LIM ∧
      gs' = {gs with total_tvl := gs.total_tvl + amount, factions := gs.factions.set u.faction_id {f with tvl := f.tvl + amount}} ∧
      u' = {u with deposited_amount := u.deposited_amount + amount, last_deposit_epoch := gs.epoch_number} := by
  unfold deposit at h
  split at h
  · cases h
  next d hd =>
    split at h
    · cases h
    next t ht =>
      split at h
      · cases h
      next f hf =>
        split at h
        · cases h
        next ft hft =>
          obtain ⟨hd1, hd2⟩ := checkedAdd_ok hd
          obtain ⟨ht1, ht2⟩ := checkedAdd_ok ht
          obtain ⟨hft1, hft2⟩ := checkedAdd_ok hft
          subst hd1 ht1 hft1
          injection h with h
          injection h with hg hu
          exact ⟨f, hf, hd2, ht2, hft2, hg.symm, hu.symm⟩

theorem withdraw_ok {gs : GameState} {u : UserPosition} {amount : Nat}
    {gs' : GameState} {u' : UserPosition}
    (h : withdraw gs u amount = .ok (gs', u')) :
    ∃ f, gs.factions.get? u.faction_id = some f ∧
      amount ≤ u.deposited_amount ∧
      amount ≤ gs.total_tvl ∧
      amount ≤ f.tvl ∧
      gs' = {gs with total_tvl := gs.total_tvl - amount, factions := gs.factions.set u.faction_id {f with tvl := f.tvl - amount}} ∧
      u' = {u with deposited_amount := u.deposited_amount - amount} := by
  unfold withdraw at h
  split at h
  · cases h
  next hguard =>
    split at h
    · cases h
    next d hd =>
      split at h
      · cases h
      next t ht =>
        split at h
        · cases h
        next f hf =>
          split at h
          · cases h
          next ft hft =>
            obtain ⟨hd1, hd2⟩ := checkedSub_ok hd
            obtain ⟨ht1, ht2⟩ := checkedSub_ok ht
            obtain ⟨hft1, hft2⟩ := checkedSub_ok hft
            subst hd2 ht2 hft2
            injection h with h
            injection h with hg hu
            exact ⟨f, hf, hd1, ht1, hft1, hg.symm, hu.symm⟩

theorem buff_step_ok {score : Int} {u : UserPosition} {y : Nat}
    {u1 : UserPosition} {fy : Nat}
    (h : buff_step score u y = .ok (some (u1, fy))) :
    u1.owner = u.owner ∧ u1.faction_id = u.faction_id ∧
    u1.deposited_amount = u.deposited_amount ∧
    u1.last_deposit_epoch = u.last_deposit_epoch ∧
    u1.automation_settings = u.automation_settings := by
  unfold buff_step at h
  split at h
  · split at h
    · split at h
      · cases h
      next n hn =>
        injection h with h
        injection h with h
        injection h with h1 h2
        subst h1
        exact ⟨rfl, rfl, rfl, rfl, rfl⟩
    · injection h with h
      cases h
  · split at h
    · split at h
      · cases h
      next fy2 hfy =>
        injection h with h
        injection h with h
        injection h with h1 h2
        subst h1
        exact ⟨rfl, rfl, rfl, rfl, rfl⟩
    · injection h with h
      injection h with h
      injection h with h1 h2
      subst h1
      exact ⟨rfl, rfl, rfl, rfl, rfl⟩

theorem run_pipeline_delta {tok : Nat → Bool} {gs : GameState} {u : UserPosition}
    {fy : Nat} {gs' : GameState} {u' : UserPosition} {xs : List Xfer}
    (h : run_pipeline tok gs u fy = .ok (gs', u', xs)) :
    u'.owner = u.owner ∧ u'.faction_id = u.faction_id ∧
    u'.last_deposit_epoch = u.last_deposit_epoch ∧
    ∃ d, u'.deposited_amount = u.deposited_amount + d ∧
      gs'.total_tvl = gs.total_tvl + d ∧
      gs'.factions.length = gs.factions.length ∧
      ∀ j, tvlAt gs' j = tvlAt gs j + (if j = u.faction_id then d else 0) := by
  unfold run_pipeline at h
  split at h
  · injection h with h
    injection h with hg h
    injection h with hu hx
    subst hg hu
    exact ⟨rfl, rfl, rfl, 0, by omega, by omega, rfl, fun j => by simp⟩
  · split at h
    · cases h
    next b1 inv1 x1 t1 hpr1 =>
      split at h
      · cases h
      next b2 inv2 x2 t2 hpr2 =>
        split at h
        · -- no yield left for the fallback
          injection h with h
          injection h with hg h
          injection h with hu hx
          subst hg hu
          exact ⟨rfl, rfl, rfl, 0, by simp, by simp, rfl, fun j => by simp⟩
        · split at h
          · -- SendToWallet
            split at h
            · injection h with h
              injection h with hg h
              injection h with hu hx
              subst hg hu
              exact ⟨rfl, rfl, rfl, 0, by simp, by simp, rfl, fun j => by simp⟩
            · cases h
          · -- AutoCompound
            split at h
            · cases h
            next d hd =>
              split at h
              · cases h
              next t ht =>
                split at h
                · cases h
                next f hf =>
                  split at h
                  · cases h
                  next ft hft =>
                    obtain ⟨hd1, hd2⟩ := checkedAdd_ok hd
                    obtain ⟨ht1, ht2⟩ := checkedAdd_ok ht
                    obtain ⟨hft1, hft2⟩ := checkedAdd_ok hft
                    subst hd1 ht1 hft1
                    injection h with h
                    injection h with hg h
                    injection h with hu hx
                    subst hg hu
                    refine ⟨rfl, rfl, rfl, b2, rfl, rfl, by simp, fun j => ?_⟩
                    rw [tvlAt_set hf rfl j]
                    by_cases hj : j = u.faction_id
                    · subst hj
                      have hf2 : gs.factions[u.faction_id]? = some f := by
                        rw [← List.get?_eq_getElem?]
                        exact hf
                      simp [tvlAt, hf2]
                    · simp [hj]

theorem settle_delta {tok : Nat → Bool} {gs : GameState} {u : UserPosition}
    {y : Nat} {gs' : GameState} {u' : UserPosition} {xs : List Xfer}
    (h : execute_settlement tok gs u y = .ok (gs', u', xs)) :
    u'.owner = u.owner ∧ u'.faction_id = u.faction_id ∧
    u'.last_deposit_epoch = u.last_deposit_epoch ∧
    ∃ d, u'.deposited_amount = u.deposited_amount + d ∧
      gs'.total_tvl = gs.total_tvl + d ∧
      gs'.factions.length = gs.factions.length ∧
      ∀ j, tvlAt gs' j = tvlAt gs j + (if j = u.faction_id then d else 0) := by
  unfold execute_settlement at h
  split at h
  · cases h
  next f hf =>
    split at h
    · cases h
    · -- buff early return: total loss, nothing distributed
      injection h with h
      injection h with hg h
      injection h with hu hx
      subst hg hu
      exact ⟨rfl, rfl, rfl, 0, by omega, by omega, rfl, fun j => by simp⟩
    next u1 fy hb =>
      obtain ⟨ho, hfid, hdep, hep, hset⟩ := buff_step_ok hb
      obtain ⟨po, pfid, pep, d, pdep, ptot, plen, ptvl⟩ := run_pipeline_delta h
      refine ⟨po.trans ho, pfid.trans hfid, pep.trans hep, d, ?_, ptot, plen, ?_⟩
      · rw [pdep, hdep]
      · intro j
        rw [ptvl j, hfid]

theorem facDep_eq (j : Nat) (u : UserPosition) :
    facDep j u = if u.faction_id = j then u.deposited_amount else 0 := rfl

theorem tvlAt_of_get? {gs : GameState} {k : Nat} {f : FactionState}
    (hf : gs.factions.get? k = some f) : tvlAt gs k = f.tvl := by
  unfold tvlAt
  rw [hf]

theorem strongInv_set {s : ChainState} {gs' : GameState} {i : Nat}
    {u u' : UserPosition}
    (hs : StrongInv s)
    (hu : s.users.get? i = some u)
    (hfid : u'.faction_id = u.faction_id)
    (hlen : gs'.factions.length = s.gs.factions.length)
    (htot : gs'.total_tvl + u.deposited_amount = s.gs.total_tvl + u'.deposited_amount)
    (htvl : ∀ j, j < 3 → tvlAt gs' j + facDep j u = tvlAt s.gs j + facDep j u') :
    StrongInv { gs := gs', users := s.users.set i u' } := by
  obtain ⟨h3, hmem, htotal, hfac⟩ := hs
  refine ⟨by rw [hlen]; exact h3, ?_, ?_, ?_⟩
  · intro v hv
    rcases List.mem_or_eq_of_mem_set hv with hv | hv
    · exact hmem v hv
    · subst hv
      rw [hfid]
      exact hmem u (List.get?_mem hu)
  · have hsum := sum_map_set (fun v => v.deposited_amount) u' hu
    dsimp only at hsum
    show gs'.total_tvl = sumDeps (s.users.set i u')
    unfold sumDeps at *
    omega
  · intro j hj
    have hsum := sum_map_set (facDep j) u' hu
    have hfj := hfac j hj
    have hvj := htvl j hj
    show tvlAt gs' j = sumFac j (s.users.set i u')
    unfold sumFac at *
    omega

theorem register_ok {s : ChainState} {o fid : Nat} {s' : ChainState}
    (h : register_user s o fid = .ok s') :
    fid < 3 ∧
    s' = {s with users := s.users ++
          [{ owner := o
             faction_id := fid
             deposited_amount := 0
             last_deposit_epoch := s.gs.epoch_number
             automation_settings := default_automation
             inventory := { sword_count := 0, shield_count := 0, spyglass_count := 0 } }]} := by
  unfold register_user at h
  split at h
  case isTrue hlt => injection h with h; exact ⟨hlt, h.symm⟩
  case isFalse => cases h

theorem strongInv_runOp {s : ChainState} {op : Op} {s' : ChainState}
    (h : runOp s op = .ok s') (hs : StrongInv s) : StrongInv s' := by
  cases op with
  | register o fid =>
    simp only [runOp] at h
    obtain ⟨hlt, hsh⟩ := register_ok h
    subst hsh
    obtain ⟨h3, hmem, htot, hfac⟩ := hs
    refine ⟨h3, ?_, ?_, ?_⟩
    · intro v hv
      rcases List.mem_append.mp hv with hv | hv
      · exact hmem v hv
      · simp at hv
        subst hv
        exact hlt
    · show s.gs.total_tvl = sumDeps (s.users ++ [_])
      simp only [sumDeps, List.map_append, List.sum_append]
      simpa [sumDeps] using htot
    · intro j hj
      have := hfac j hj
      show tvlAt s.gs j = sumFac j (s.users ++ [_])
      simp only [sumFac, List.map_append, List.sum_append]
      simpa [sumFac, facDep] using this
  | deposit i amount =>
    simp only [runOp] at h
    split at h
    · cases h
    next u hu =>
      split at h
      · cases h
      next gs' u' hdep =>
        obtain ⟨f, hf, _, _, _, hg, hup⟩ := deposit_ok hdep
        injection h with h
        subst h hg hup
        apply strongInv_set hs hu
        · rfl
        · simp
        · show s.gs.total_tvl + amount + u.deposited_amount
            = s.gs.total_tvl + (u.deposited_amount + amount)
          omega
        · intro j hj
          rw [tvlAt_set hf rfl j]
          by_cases hj2 : j = u.faction_id
          · subst hj2
            rw [tvlAt_of_get? hf]
            simp [facDep]
            omega
          · have : ¬(u.faction_id = j) := fun hc => hj2 hc.symm
            simp [facDep, hj2, this]
  | withdraw i amount =>
    simp only [runOp] at h
    split at h
    · cases h
    next u hu =>
      split at h
      · cases h
      next gs' u' hwd =>
        obtain ⟨f, hf, hle1, hle2, hle3, hg, hup⟩ := withdraw_ok hwd
        injection h with h
        subst h hg hup
        apply strongInv_set hs hu
        · rfl
        · simp
        · show s.gs.total_tvl - amount + u.deposited_amount
            = s.gs.total_tvl + (u.deposited_amount - amount)
          omega
        · intro j hj
          rw [tvlAt_set hf rfl j]
          by_cases hj2 : j = u.faction_id
          · subst hj2
            rw [tvlAt_of_get? hf]
            simp [facDep]
            omega
          · have : ¬(u.faction_id = j) := fun hc => hj2 hc.symm
            simp [facDep, hj2, this]
  | settle tok i y =>
    simp only [runOp] at h
    split at h
    · cases h
    next u hu =>
      split at h
      · cases h
      next gs' u' xs hst =>
        obtain ⟨ho, hfid, hep, d, hdep, htot, hlen, htvl⟩ := settle_delta hst
        injection h with h
        subst h
        apply strongInv_set hs hu hfid hlen (by omega)
        intro j hj
        rw [htvl j]
        by_cases hj2 : j = u.faction_id
        · subst hj2
          have hfe : u'.faction_id = u.faction_id := hfid
          simp [facDep, hfe, hdep]
          omega
        · have h1 : ¬(u.faction_id = j) := fun hc => hj2 hc.symm
          have h2 : ¬(u'.faction_id = j) := by rw [hfid]; exact h1
          simp [facDep, hj2, h1, h2]

theorem strongInv_applyOp (s : ChainState) (op : Op) (hs : StrongInv s) :
    StrongInv (applyOp s op) := by
  unfold applyOp commit
  cases hr : runOp s op with
  | ok s' => exact strongInv_runOp hr hs
  | error e => exact hs

theorem strongInv_foldl (ops : List Op) (s : ChainState) (hs : StrongInv s) :
    StrongInv (ops.foldl applyOp s) := by
  induction ops generalizing s with
  | nil => exact hs
  | cons op t ih => exact ih (applyOp s op) (strongInv_applyOp s op hs)

theorem strongInv_consInv {s : ChainState} (hs : StrongInv s) : ConsInv s := by
  obtain ⟨h3, hmem, htot, hfac⟩ := hs
  constructor
  · rw [hfac 0 (by omega), hfac 1 (by omega), hfac 2 (by omega), sumFac_split hmem]
    exact htot
  · exact htot

theorem strongInv_init {admin : Nat} {now : Int} {s0 : ChainState}
    (h : init_game admin now = .ok s0) : StrongInv s0 := by
  unfold init_game at h
  split at h
  · cases h
  next endTs he =>
    injection h with h
    subst h
    refine ⟨rfl, ?_, rfl, ?_⟩
    · intro v hv
      cases hv
    · intro j hj
      interval_cases j <;> rfl

theorem get_item_price_eq_zero (id : Nat) (h1 : id ≠ 1) (h2 : id ≠ 2) (h3 : id ≠ 3) :
    get_item_price id = 0 := by
  match id, h1, h2, h3 with
  | 0, _, _, _ => rfl
  | 1, h, _, _ => exact absurd rfl h
  | 2, _, h, _ => exact absurd rfl h
  | 3, _, _, h => exact absurd rfl h
  | (n+4), _, _, _ => rfl

/-- Claim C3: for a user whose faction score is `<= 0`, if `shield_count > 0`
then `execute_settlement` enters the automation pipeline with the shield
count decreased by exactly one and a budget of exactly 2000000, whatever
`yield_amount` the caller supplied; if `shield_count = 0` it returns
success with no transfer and no state change, for any `yield_amount`. -/
theorem settlement_shield_insurance :
    (∀ (tok : Nat → Bool) (gs : GameState) (u : UserPosition) (y : Nat) (f : FactionState),
      gs.factions.get? u.faction_id = some f → f.score ≤ 0 →
      0 < u.inventory.shield_count →
      execute_settlement tok gs u y
        = run_pipeline tok gs
            {u with inventory := {u.inventory with shield_count := u.inventory.shield_count - 1}}
            2000000) ∧
    (∀ (tok : Nat → Bool) (gs : GameState) (u : UserPosition) (y : Nat) (f : FactionState),
      gs.factions.get? u.faction_id = some f → f.score ≤ 0 →
      u.inventory.shield_count = 0 →
      execute_settlement tok gs u y = .ok (gs, u, [])) := by
  constructor
  · intro tok gs u y f hf hsc hsh
    have hb : buff_step f.score u y
        = .ok (some ({u with inventory := {u.inventory with shield_count := u.inventory.shield_count - 1}}, 2000000)) := by
      unfold buff_step checkedSub
      rw [if_pos hsc, if_pos hsh, if_pos (show 1 ≤ u.inventory.shield_count from hsh)]
    simp only [execute_settlement, hf, hb]
  · intro tok gs u y f hf hsc hsh
    have hb : buff_step f.score u y = .ok none := by
      unfold buff_step
      rw [if_pos hsc, if_neg (by omega)]
    simp only [execute_settlement, hf, hb]

/-- Claim C4: for a user whose faction score is `> 0` and who owns at least
one sword, `execute_settlement` with caller-supplied yield `y` enters the
automation pipeline with a starting budget of exactly `y + y / 5` (integer
floor division), and the user record entering the pipeline — in particular
its `sword_count` — is unchanged by the buff step. -/
theorem settlement_sword_boost :
    ∀ (tok : Nat → Bool) (gs : GameState) (u : UserPosition) (y : Nat) (f : FactionState),
      gs.factions.get? u.faction_id = some f → 0 < f.score →
      1 ≤ u.inventory.sword_count → y + y / 5 < U64LIM →
      execute_settlement tok gs u y = run_pipeline tok gs u (y + y / 5) := by
  intro tok gs u y f hf hsc hsw hov
  have hb : buff_step f.score u y = .ok (some (u, y + y / 5)) := by
    unfold buff_step checkedAdd
    rw [if_neg (by omega), if_pos (show 0 < u.inventory.sword_count from hsw), if_pos hov]
  simp only [execute_settlement, hf, hb]

/-- Claim C7: a slot whose threshold passes but whose price exceeds the
budget is skipped entirely (budget, inventory and transfers untouched);
a slot with `item_id = 0`, or with an item id outside 1-3, is likewise a
no-op. -/
theorem slot_skip_unaffordable :
    (∀ (tok : Nat → Bool) (t : Nat) (rule : AutomationRule) (budget : Nat) (inv : UserInventory),
      rule.threshold ≤ budget → budget < get_item_price rule.item_id →
      process_rule tok t rule budget inv = .ok (budget, inv, [], t)) ∧
    (∀ (tok : Nat → Bool) (t : Nat) (rule : AutomationRule) (budget : Nat) (inv : UserInventory),
      rule.item_id = 0 →
      process_rule tok t rule budget inv = .ok (budget, inv, [], t)) ∧
    (∀ (tok : Nat → Bool) (t : Nat) (rule : AutomationRule) (budget : Nat) (inv : UserInventory),
      rule.item_id ≠ 1 → rule.item_id ≠ 2 → rule.item_id ≠ 3 →
      process_rule tok t rule budget inv = .ok (budget, inv, [], t)) := by
  refine ⟨?_, ?_, ?_⟩
  · intro tok t rule budget inv hth hpr
    have hnth : ¬(budget < rule.threshold) := by omega
    by_cases h0 : rule.item_id = 0
    · simp [process_rule, h0]
    · simp [process_rule, h0, hnth, hpr]
  · intro tok t rule budget inv h0
    simp [process_rule, h0]
  · intro tok t rule budget inv h1 h2 h3
    have hz : get_item_price rule.item_id = 0 := get_item_price_eq_zero _ h1 h2 h3
    by_cases h0 : rule.item_id = 0
    · simp [process_rule, h0]
    · by_cases hth : budget < rule.threshold
      · simp [process_rule, h0, hth]
      · simp [process_rule, h0, hth, hz]

/-- Claim C5: if any step of `execute_settlement` fails — checked
arithmetic, a failed transfer, or a bad index — the transaction aborts
atomically and the committed state is exactly the pre-call state; no
intermediate write (such as a consumed shield without its transfer) is
ever observable. -/
theorem settlement_atomic_abort (s : ChainState) (tok : Nat → Bool) (i y : Nat)
    (e : ZErr) (h : runOp s (.settle tok i y) = .error e) :
    applyOp s (.settle tok i y) = s := by
  unfold applyOp commit
  rw [h]

theorem start_new_epoch_ok_shape {gs : GameState} {now : Int} {gs' : GameState}
    (h : start_new_epoch gs now = .ok gs') :
    gs'.epoch_number = gs.epoch_number + 1 ∧ gs.epoch_number + 1 < U64LIM := by
  unfold start_new_epoch at h
  split at h
  · cases h
  next n hn =>
    split at h
    · cases h
    next endTs he =>
      split at h
      · cases h
      next f1 h1 =>
        split at h
        · cases h
        next f2 h2 =>
          split at h
          · cases h
          next f3 h3 =>
            obtain ⟨hn1, hn2⟩ := checkedAdd_ok hn
            subst hn1
            injection h with h
            subst h
            exact ⟨rfl, hn2⟩

/-- Claim C6: arithmetic on the numeric state fields is checked: an
overflowing `epoch_number` increment or deposit aborts with an error
instead of wrapping, and every value produced by a successful checked
operation is the exact mathematical result inside the `u64` range.
The `epoch_number` increment is a plain `+=` in the source, modelled as
checked per the spec (see `start_new_epoch`). -/
theorem arithmetic_checked_no_wrap :
    (∀ (gs : GameState) (now : Int), U64LIM ≤ gs.epoch_number + 1 →
      start_new_epoch gs now = .error .overflow) ∧
    (∀ (gs : GameState) (now : Int) (gs' : GameState),
      start_new_epoch gs now = .ok gs' →
      gs'.epoch_number = gs.epoch_number + 1 ∧ gs.epoch_number + 1 < U64LIM) ∧
    (∀ (gs : GameState) (u : UserPosition) (amount : Nat),
      U64LIM ≤ u.deposited_amount + amount →
      deposit gs u amount = .error .overflow) ∧
    (∀ (gs : GameState) (u : UserPosition) (amount : Nat)
       (gs' : GameState) (u' : UserPosition),
      deposit gs u amount = .ok (gs', u') →
      u'.deposited_amount = u.deposited_amount + amount ∧
      u.deposited_amount + amount < U64LIM ∧
      gs'.total_tvl = gs.total_tvl + amount ∧
      gs.total_tvl + amount < U64LIM) ∧
    (∀ a b r : Nat, checkedAdd a b = .ok r → r = a + b ∧ a + b < U64LIM) ∧
    (∀ a b r : Nat, checkedSub a b = .ok r → b ≤ a ∧ r = a - b) := by
  refine ⟨?_, ?_, ?_, ?_, ?_, ?_⟩
  · intro gs now hov
    unfold start_new_epoch checkedAdd
    rw [if_neg (by omega)]
  · intro gs now gs' h
    exact start_new_epoch_ok_shape h
  · intro gs u amount hov
    unfold deposit checkedAdd
    rw [if_neg (by omega)]
  · intro gs u amount gs' u' h
    obtain ⟨f, hf, hb1, hb2, hb3, hg, hup⟩ := deposit_ok h
    subst hg hup
    exact ⟨rfl, hb1, rfl, hb2⟩
  · intro a b r h
    exact checkedAdd_ok h
  · intro a b r h
    exact checkedSub_ok h

theorem start_new_epoch_ok {gs : GameState} {now : Int} {a b c : FactionState}
    (hl : gs.factions = [a, b, c])
    (hep : gs.epoch_number + 1 < U64LIM)
    (h1 : -I64LIM ≤ now + 259200) (h2 : now + 259200 < I64LIM) :
    start_new_epoch gs now
      = .ok {gs with epoch_number := gs.epoch_number + 1, epoch_start_ts := now, epoch_end_ts := now + 259200, status := .Active, factions := [{a with score := 0}, {b with score := 0}, {c with score := 0}]} := by
  unfold start_new_epoch checkedAdd checkedAddI set_score_zero
  rw [hl, if_pos hep, if_pos ⟨h1, h2⟩]
  rfl

/-- Claim C9: a successful `start_new_epoch` increments `epoch_number` by
exactly one, zeroes all three faction scores, sets the status to Active,
and leaves every faction's tvl and every user's deposited amount
untouched. -/
theorem epoch_reset (s : ChainState) (now : Int)
    (hlen : s.gs.factions.length = 3)
    (hep : s.gs.epoch_number + 1 < U64LIM)
    (h1 : -I64LIM ≤ now + 259200) (h2 : now + 259200 < I64LIM) :
    isOk (start_new_epoch_ix s now) = true ∧
    (commit s (start_new_epoch_ix s now)).gs.epoch_number = s.gs.epoch_number + 1 ∧
    (commit s (start_new_epoch_ix s now)).gs.status = .Active ∧
    (∀ j, j < 3 → scoreAt (commit s (start_new_epoch_ix s now)).gs j = 0) ∧
    (∀ j, tvlAt (commit s (start_new_epoch_ix s now)).gs j = tvlAt s.gs j) ∧
    (commit s (start_new_epoch_ix s now)).users = s.users := by
  obtain ⟨a, b, c, hl⟩ := List.length_eq_three.mp hlen
  have hsne := start_new_epoch_ok hl hep h1 h2
  have hix : start_new_epoch_ix s now
      = .ok { gs := {s.gs with epoch_number := s.gs.epoch_number + 1, epoch_start_ts := now, epoch_end_ts := now + 259200, status := .Active, factions := [{a with score := 0}, {b with score := 0}, {c with score := 0}]}
              users := s.users } := by
    unfold start_new_epoch_ix
    rw [hsne]
  rw [hix]
  unfold commit isOk
  refine ⟨rfl, rfl, rfl, ?_, ?_, rfl⟩
  · intro j hj
    interval_cases j <;> rfl
  · intro j
    unfold tvlAt
    rw [hl]
    rcases j with _ | _ | _ | j <;> rfl

/-- Claim C10: the AutoCompound fallback of `execute_settlement` can
increase the user's deposited amount but leaves `last_deposit_epoch`
untouched, whereas `deposit` always stamps `last_deposit_epoch` with the
current `epoch_number`. -/
theorem compound_keeps_deposit_epoch :
    (∀ (tok : Nat → Bool) (gs : GameState) (u : UserPosition) (y : Nat)
       (gs' : GameState) (u' : UserPosition) (xs : List Xfer),
      u.automation_settings.fallback_action = .AutoCompound →
      execute_settlement tok gs u y = .ok (gs', u', xs) →
      u.deposited_amount < u'.deposited_amount →
      u'.last_deposit_epoch = u.last_deposit_epoch) ∧
    (∀ (gs : GameState) (u : UserPosition) (amount : Nat)
       (gs' : GameState) (u' : UserPosition),
      deposit gs u amount = .ok (gs', u') →
      u'.last_deposit_epoch = gs.epoch_number) := by
  constructor
  · intro tok gs u y gs' u' xs hfb h hinc
    exact (settle_delta h).2.2.1
  · intro gs u amount gs' u' h
    obtain ⟨f, hf, _, _, _, hg, hup⟩ := deposit_ok h
    subst hup
    rfl

theorem withdraw_succeeds {gs : GameState} {u : UserPosition} {amount : Nat}
    {f : FactionState}
    (hf : gs.factions.get? u.faction_id = some f)
    (h1 : amount ≤ u.deposited_amount) (h2 : amount ≤ gs.total_tvl)
    (h3 : amount ≤ f.tvl) :
    withdraw gs u amount
      = .ok ({gs with total_tvl := gs.total_tvl - amount, factions := gs.factions.set u.faction_id {f with tvl := f.tvl - amount}},
             {u with deposited_amount := u.deposited_amount - amount}) := by
  have hng : ¬(u.deposited_amount < amount) := by omega
  simp only [withdraw, checkedSub, if_neg hng, if_pos h1, if_pos h2, if_pos h3, hf]

theorem depAt_set {l : List UserPosition} {i : Nat} {u : UserPosition}
    (u' : UserPosition) (hu : l.get? i = some u) (gs2 : GameState) :
    depAt { gs := gs2, users := l.set i u' } i = u'.deposited_amount := by
  unfold depAt
  show (match (l.set i u').get? i with
        | some v => v.deposited_amount
        | none => 0) = u'.deposited_amount
  rw [get?_set_self u' (get?_some_lt hu)]

/-- Claim C8: withdrawing any amount up to `deposited_amount` succeeds and
decrements the user's balance, the user's faction tvl, and the global
`total_tvl` each by exactly that amount; withdrawing more fails with
InsufficientFunds and the committed state is unchanged.  The ledger
invariant `StrongInv` stands in for reachability from the initialized
state (every reachable state satisfies it, by `strongInv_foldl`). -/
theorem withdraw_boundary (s : ChainState) (i : Nat) (u : UserPosition) (amount : Nat)
    (hs : StrongInv s) (hu : s.users.get? i = some u) :
    (amount ≤ u.deposited_amount →
      isOk (runOp s (.withdraw i amount)) = true ∧
      depAt (applyOp s (.withdraw i amount)) i = u.deposited_amount - amount ∧
      (applyOp s (.withdraw i amount)).gs.total_tvl = s.gs.total_tvl - amount ∧
      tvlAt (applyOp s (.withdraw i amount)).gs u.faction_id
        = tvlAt s.gs u.faction_id - amount) ∧
    (u.deposited_amount < amount →
      runOp s (.withdraw i amount) = .error .insufficientFunds ∧
      applyOp s (.withdraw i amount) = s) := by
  obtain ⟨h3, hmem, htot, hfac⟩ := hs
  constructor
  · intro hle
    have humem : u ∈ s.users := List.get?_mem hu
    have hfid3 : u.faction_id < 3 := hmem u humem
    obtain ⟨f, hf⟩ : ∃ f, s.gs.factions.get? u.faction_id = some f := by
      cases hgf : s.gs.factions.get? u.faction_id with
      | some f => exact ⟨f, rfl⟩
      | none =>
        rw [List.get?_eq_none] at hgf
        omega
    have hfd : facDep u.faction_id u = u.deposited_amount := by
      simp [facDep]
    have hfa : u.deposited_amount ≤ sumFac u.faction_id s.users := by
      have := le_sum_of_get? (facDep u.faction_id) hu
      rw [hfd] at this
      exact this
    have htv : tvlAt s.gs u.faction_id = f.tvl := tvlAt_of_get? hf
    have hfacd := hfac u.faction_id hfid3
    have hdt : u.deposited_amount ≤ sumDeps s.users :=
      le_sum_of_get? (fun v => v.deposited_amount) hu
    have h2 : amount ≤ s.gs.total_tvl := by
      rw [htot]
      omega
    have hftl : amount ≤ f.tvl := by
      rw [← htv, hfacd]
      omega
    have hw := withdraw_succeeds hf hle h2 hftl
    have hrun : runOp s (.withdraw i amount)
        = .ok { gs := {s.gs with total_tvl := s.gs.total_tvl - amount, factions := s.gs.factions.set u.faction_id {f with tvl := f.tvl - amount}}
                users := s.users.set i {u with deposited_amount := u.deposited_amount - amount} } := by
      simp only [runOp, hu, hw]
    refine ⟨?_, ?_, ?_, ?_⟩
    · rw [hrun]
      rfl
    · unfold applyOp commit
      rw [hrun]
      exact depAt_set _ hu _
    · unfold applyOp commit
      rw [hrun]
    · unfold applyOp commit
      rw [hrun]
      show tvlAt {s.gs with total_tvl := s.gs.total_tvl - amount, factions := s.gs.factions.set u.faction_id {f with tvl := f.tvl - amount}} u.faction_id
        = tvlAt s.gs u.faction_id - amount
      rw [tvlAt_set hf rfl u.faction_id, if_pos rfl, htv]
  · intro hlt
    have hw : withdraw s.gs u amount = .error .insufficientFunds := by
      unfold withdraw
      rw [if_pos hlt]
    have hrun : runOp s (.withdraw i amount) = .error .insufficientFunds := by
      simp only [runOp, hu, hw]
    refine ⟨hrun, ?_⟩
    unfold applyOp commit
    rw [hrun]

/-- Claim C1: starting from the state created by `initialize_game`, after
every sequence of committed register/deposit/withdraw/settlement
operations (settlements with either fallback included, which subsumes the
claimed AutoCompound ones; aborted operations keep the pre-state), the
global `total_tvl` equals the sum of the three faction tvls and equals the
sum of all users' deposited amounts. -/
theorem conservation_all_ops (admin : Nat) (now : Int) (s0 : ChainState)
    (ops : List Op) (h : init_game admin now = .ok s0) :
    ConsInv (ops.foldl applyOp s0) :=
  strongInv_consInv (strongInv_foldl ops s0 (strongInv_init h))

/-- The state produced by `initialize_game` with admin 0 at time 0. -/
def c1_state : ChainState :=
  { gs := { admin := 0
            epoch_number := 1
            epoch_start_ts := 0
            epoch_end_ts := 259200
            total_tvl := 0
            factions := initial_factions
            status := .Active }
    users := [] }

theorem conservation_all_ops_wit :
    init_game 0 0 = .ok c1_state ∧
    ConsInv ([Op.register 7 0, Op.register 8 1, Op.deposit 0 500, Op.deposit 1 300,
              Op.withdraw 0 200, Op.settle (fun _ => true) 0 0].foldl applyOp c1_state) :=
  ⟨by rfl, conservation_all_ops 0 0 c1_state _ (by rfl)⟩

/-- A settlement-phase state whose single user lost with one shield and a
shield-buying slot, so a failing transfer aborts mid-pipeline. -/
def w5_state : ChainState :=
  { gs := { admin := 0
            epoch_number := 2
            epoch_start_ts := 0
            epoch_end_ts := 259200
            total_tvl := 50
            factions := [{ id := 0, name := "Vanguard", tvl := 50, score := -3 },
                         { id := 1, name := "Mage", tvl := 0, score := 6 },
                         { id := 2, name := "Assassin", tvl := 0, score := -3 }]
            status := .Settlement }
    users := [{ owner := 11
                faction_id := 0
                deposited_amount := 50
                last_deposit_epoch := 1
                automation_settings := { priority_slot_1 := { item_id := 2, threshold := 0 }
                                         priority_slot_2 := { item_id := 0, threshold := 0 }
                                         fallback_action := .AutoCompound }
                inventory := { sword_count := 0, shield_count := 1, spyglass_count := 0 } }] }

theorem settlement_atomic_abort_wit :
    runOp w5_state (.settle (fun _ => false) 0 9000000) = .error .transferFailed ∧
    applyOp w5_state (.settle (fun _ => false) 0 9000000) = w5_state :=
  ⟨by rfl, settlement_atomic_abort w5_state (fun _ => false) 0 9000000 .transferFailed (by rfl)⟩

def gs3 : GameState :=
  { admin := 0
    epoch_number := 2
    epoch_start_ts := 0
    epoch_end_ts := 259200
    total_tvl := 10
    factions := [{ id := 0, name := "Vanguard", tvl := 10, score := -2 },
                 { id := 1, name := "Mage", tvl := 0, score := 4 },
                 { id := 2, name := "Assassin", tvl := 0, score := -2 }]
    status := .Settlement }

def u3 : UserPosition :=
  { owner := 31
    faction_id := 0
    deposited_amount := 10
    last_deposit_epoch := 1
    automation_settings := default_automation
    inventory := { sword_count := 0, shield_count := 1, spyglass_count := 0 } }

def u3z : UserPosition :=
  { u3 with inventory := { sword_count := 0, shield_count := 0, spyglass_count := 0 } }

theorem settlement_shield_insurance_wit :
    execute_settlement (fun _ => true) gs3 u3 555
      = run_pipeline (fun _ => true) gs3
          {u3 with inventory := {u3.inventory with shield_count := u3.inventory.shield_count - 1}}
          2000000 ∧
    execute_settlement (fun _ => true) gs3 u3z 555 = .ok (gs3, u3z, []) :=
  ⟨settlement_shield_insurance.1 (fun _ => true) gs3 u3 555
      { id := 0, name := "Vanguard", tvl := 10, score := -2 } (by rfl) (by decide) (by decide),
   settlement_shield_insurance.2 (fun _ => true) gs3 u3z 555
      { id := 0, name := "Vanguard", tvl := 10, score := -2 } (by rfl) (by decide) (by rfl)⟩

def gs4 : GameState :=
  { gs3 with
    factions := [{ id := 0, name := "Vanguard", tvl := 10, score := 5 },
                 { id := 1, name := "Mage", tvl := 0, score := -5 },
                 { id := 2, name := "Assassin", tvl := 0, score := 0 }] }

def u4 : UserPosition :=
  { u3 with inventory := { sword_count := 1, shield_count := 0, spyglass_count := 0 } }

theorem settlement_sword_boost_wit :
    execute_settlement (fun _ => true) gs4 u4 100
      = run_pipeline (fun _ => true) gs4 u4 (100 + 100 / 5) :=
  settlement_sword_boost (fun _ => true) gs4 u4 100
    { id := 0, name := "Vanguard", tvl := 10, score := 5 } (by rfl) (by decide) (by decide) (by decide)

def inv7 : UserInventory := { sword_count := 2, shield_count := 3, spyglass_count := 4 }

theorem slot_skip_unaffordable_wit :
    process_rule (fun _ => true) 0 { item_id := 1, threshold := 1000000 } 3000000 inv7
      = .ok (3000000, inv7, [], 0) ∧
    process_rule (fun _ => true) 4 { item_id := 0, threshold := 0 } 3000000 inv7
      = .ok (3000000, inv7, [], 4) ∧
    process_rule (fun _ => true) 5 { item_id := 9, threshold := 0 } 3000000 inv7
      = .ok (3000000, inv7, [], 5) :=
  ⟨slot_skip_unaffordable.1 (fun _ => true) 0 _ 3000000 inv7 (by decide) (by decide),
   slot_skip_unaffordable.2.1 (fun _ => true) 4 _ 3000000 inv7 (by rfl),
   slot_skip_unaffordable.2.2 (fun _ => true) 5 _ 3000000 inv7 (by decide) (by decide) (by decide)⟩

def gs6 : GameState := { gs3 with epoch_number := U64LIM - 1 }

theorem arithmetic_checked_no_wrap_wit :
    U64LIM ≤ gs6.epoch_number + 1 ∧
    start_new_epoch gs6 0 = .error .overflow :=
  ⟨by decide, arithmetic_checked_no_wrap.1 gs6 0 (by decide)⟩

def s9 : ChainState :=
  { gs := { gs3 with epoch_number := 7 }
    users := [u3] }

theorem epoch_reset_wit :
    s9.gs.factions.length = 3 ∧
    (commit s9 (start_new_epoch_ix s9 0)).gs.epoch_number = s9.gs.epoch_number + 1 ∧
    (commit s9 (start_new_epoch_ix s9 0)).users = s9.users :=
  ⟨by rfl,
   (epoch_reset s9 0 (by rfl) (by decide) (by decide) (by decide)).2.1,
   (epoch_reset s9 0 (by rfl) (by decide) (by decide) (by decide)).2.2.2.2.2⟩

def gs10 : GameState :=
  { admin := 0
    epoch_number := 4
    epoch_start_ts := 0
    epoch_end_ts := 259200
    total_tvl := 10
    factions := [{ id := 0, name := "Vanguard", tvl := 10, score := 2 },
                 { id := 1, name := "Mage", tvl := 0, score := -1 },
                 { id := 2, name := "Assassin", tvl := 0, score := -1 }]
    status := .Settlement }

def u10 : UserPosition :=
  { owner := 21
    faction_id := 0
    deposited_amount := 10
    last_deposit_epoch := 1
    automation_settings := default_automation
    inventory := { sword_count := 0, shield_count := 0, spyglass_count := 0 } }

def gs10x : GameState :=
  { gs10 with
    total_tvl := 17
    factions := [{ id := 0, name := "Vanguard", tvl := 17, score := 2 },
                 { id := 1, name := "Mage", tvl := 0, score := -1 },
                 { id := 2, name := "Assassin", tvl := 0, score := -1 }] }

def u10x : UserPosition := { u10 with deposited_amount := 17 }

def gs10d : GameState :=
  { gs10 with
    total_tvl := 15
    factions := [{ id := 0, name := "Vanguard", tvl := 15, score := 2 },
                 { id := 1, name := "Mage", tvl := 0, score := -1 },
                 { id := 2, name := "Assassin", tvl := 0, score := -1 }] }

def u10d : UserPosition := { u10 with deposited_amount := 15, last_deposit_epoch := 4 }

theorem compound_keeps_deposit_epoch_wit :
    u10.automation_settings.fallback_action = .AutoCompound ∧
    execute_settlement (fun _ => true) gs10 u10 7 = .ok (gs10x, u10x, []) ∧
    u10x.last_deposit_epoch = u10.last_deposit_epoch ∧
    deposit gs10 u10 5 = .ok (gs10d, u10d) ∧
    u10d.last_deposit_epoch = gs10.epoch_number :=
  ⟨by rfl, by rfl,
   compound_keeps_deposit_epoch.1 (fun _ => true) gs10 u10 7 gs10x u10x []
     (by rfl) (by rfl) (by decide),
   by rfl,
   compound_keeps_deposit_epoch.2 gs10 u10 5 gs10d u10d (by rfl)⟩

def u8 : UserPosition :=
  { owner := 41
    faction_id := 0
    deposited_amount := 5
    last_deposit_epoch := 1
    automation_settings := default_automation
    inventory := { sword_count := 0, shield_count := 0, spyglass_count := 0 } }

def s8 : ChainState :=
  { gs := { admin := 0
            epoch_number := 1
            epoch_start_ts := 0
            epoch_end_ts := 259200
            total_tvl := 5
            factions := [{ id := 0, name := "Vanguard", tvl := 5, score := 0 },
                         { id := 1, name := "Mage", tvl := 0, score := 0 },
                         { id := 2, name := "Assassin", tvl := 0, score := 0 }]
            status := .Active }
    users := [u8] }

theorem withdraw_boundary_wit :
    StrongInv s8 ∧
    isOk (runOp s8 (.withdraw 0 5)) = true ∧
    depAt (applyOp s8 (.withdraw 0 5)) 0 = u8.deposited_amount - 5 ∧
    runOp s8 (.withdraw 0 6) = .error .insufficientFunds ∧
    applyOp s8 (.withdraw 0 6) = s8 :=
  ⟨by unfold StrongInv; decide,
   ((withdraw_boundary s8 0 u8 5 (by unfold StrongInv; decide) (by rfl)).1 (by decide)).1,
   ((withdraw_boundary s8 0 u8 5 (by unfold StrongInv; decide) (by rfl)).1 (by decide)).2.1,
   ((withdraw_boundary s8 0 u8 6 (by unfold StrongInv; decide) (by rfl)).2 (by decide)).1,
   ((withdraw_boundary s8 0 u8 6 (by unfold StrongInv; decide) (by rfl)).2 (by decide)).2⟩

end Zol
